import Mathlib

/-
Shallow embedding of `src/estipy/eta.py` (the ETA progress estimator).

Modelling conventions:
  * Python `datetime` values are integers of microseconds since the epoch;
    `timedelta` values are integers of microseconds.  This matches CPython,
    where both types have microsecond resolution.
  * `timedelta / int` in CPython rounds to the nearest microsecond with ties
    to even (`_divide_and_round` in `datetime.py`); `divideAndRound` below is
    a faithful translation.  `timedelta * int` and `datetime + timedelta` are
    exact integer operations.
  * Python `float` results (the percentages produced by `int / int * 100`)
    are modelled as exact rationals (`ℚ`).
  * The wrapped iterable is a `PySource`: the list of elements it will yield
    plus a flag recording whether it has a `__len__` attribute (a Python list
    does, a generator does not).  When `hasLen` is true, `len` is the length
    of `elems`.
  * Raising an exception is modelled with `Except` / `Option`.  Note that
    `ETA.__next__` mutates `self.__done` before pulling from the inner
    iterator, so the state reached by a raising call is part of the error
    value.
  * The `print` side effects controlled by `auto_print` / `overwrite` /
    `file` are I/O and are not modelled; the flags themselves are kept as
    state fields, faithful to `__init__`.
-/

namespace Estipy

/-- CPython `datetime._divide_and_round a b`: divide and round to nearest with
ties going to even, used by `timedelta.__truediv__(int)`.  `divmod` in Python
is floor division with the corresponding modulus, i.e. `Int.fdiv`/`Int.fmod`. -/
def divideAndRound (a b : Int) : Int :=
  let q := a.fdiv b
  let r := a.fmod b * 2
  let greaterThanHalf : Bool := if 0 < b then decide (b < r) else decide (r < b)
  if greaterThanHalf || (decide (r = b) && decide (q.emod 2 = 1)) then q + 1 else q

/-- `AbsRelTime`: container for absolute, relative and time (one facet of
progress).  `time` is a `timedelta` in microseconds, `absolute` the number of
elements of the facet, `percentage` the Python float as an exact rational. -/
structure AbsRelTime where
  time : Int
  absolute : Int
  percentage : ℚ
deriving DecidableEq

/-- `ETA.Stats`: frozen dataclass with statistics about the current status of
ETA.  `eta` is a `datetime` in microseconds since the epoch. -/
structure Stats where
  total : AbsRelTime
  remaining : AbsRelTime
  done : AbsRelTime
  eta : Int
deriving DecidableEq

/-- A Python iterable handed to `ETA.__init__`: the elements it will yield,
and whether it has a `__len__` attribute.  When `hasLen` is true the length
reported by `len` is `elems.length`. -/
structure PySource (α : Type) where
  elems : List α
  hasLen : Bool
deriving DecidableEq

/-- The Python exceptions that the translated code can raise. -/
inductive PyError where
  | typeError
  | stopIteration
  | zeroDivisionError
deriving DecidableEq

/-- The mutable fields of an `ETA` instance: `__total`, `__done`,
`__start_time`, the inner iterator `__iterable` (the elements not yet
yielded), and the output flags `__auto_print` and `__overwrite`. -/
structure ETAState (α : Type) where
  total : Int
  done : Int
  startTime : Int
  iterator : List α
  autoPrint : Bool
  overwrite : Bool
deriving DecidableEq

namespace ETA

/-- `ETA.__init__`.  Translates the Python truthiness test `if total:` (which
is false both for `None` and for `0`), the `elif hasattr(iterable, '__len__')`
branch using `len(iterable)`, and the final `raise TypeError(...)`.  `now` is
the value of `datetime.now()` captured as `__start_time`. -/
def init {α : Type} (src : PySource α) (total : Option Int)
    (autoPrint overwrite : Bool) (now : Int) : Except PyError (ETAState α) :=
  let truthyTotal : Option Int :=
    match total with
    | some t => if t = 0 then none else some t
    | none => none
  match truthyTotal with
  | some t =>
      .ok { total := t, done := 0, startTime := now, iterator := src.elems,
            autoPrint := autoPrint, overwrite := overwrite }
  | none =>
      if src.hasLen then
        .ok { total := (src.elems.length : Int), done := 0, startTime := now,
              iterator := src.elems, autoPrint := autoPrint, overwrite := overwrite }
      else
        .error .typeError

/-- `ETA.stats`.  `now1` is the `datetime.now()` used for
`elapsed_since_start`, `now2` the one used for `eta`.  Returns `none` exactly
when Python would raise `ZeroDivisionError`: `elapsed / self.__done` with
`__done == 0`, or the percentage divisions with `__total == 0`. -/
def statsAt {α : Type} (st : ETAState α) (now1 now2 : Int) : Option Stats :=
  if st.done = 0 ∨ st.total = 0 then none
  else
    let elapsedSinceStart := now1 - st.startTime
    let durationPerOperation := divideAndRound elapsedSinceStart st.done
    let remainingAbsolute := st.total - st.done
    let remainingTime := durationPerOperation * remainingAbsolute
    some
      { total :=
          { time := durationPerOperation * st.total,
            absolute := st.total,
            percentage := 100 },
        remaining :=
          { time := remainingTime,
            absolute := remainingAbsolute,
            percentage := ((remainingAbsolute : ℚ) / (st.total : ℚ)) * 100 },
        done :=
          { time := durationPerOperation * st.done,
            absolute := st.done,
            percentage := ((st.done : ℚ) / (st.total : ℚ)) * 100 },
        eta := now2 + remainingTime }

/-- `ETA.__next__`.  Faithful to the statement order of the source:
`self.__done += 1` happens first, then `next(self.__iterable)` (which raises
`StopIteration` when the inner iterator is exhausted), then `self.stats()`.
An error carries the state as it stands when the exception propagates, so a
`StopIteration` carries the already-incremented `done` counter. -/
def next {α : Type} (st : ETAState α) (now1 now2 : Int) :
    Except (PyError × ETAState α) ((α × Stats) × ETAState α) :=
  let st1 : ETAState α := { st with done := st.done + 1 }
  match st1.iterator with
  | [] => .error (.stopIteration, st1)
  | x :: rest =>
      let st2 : ETAState α := { st1 with iterator := rest }
      match statsAt st2 now1 now2 with
      | none => .error (.zeroDivisionError, st2)
      | some s => .ok ((x, s), st2)

end ETA

/-- The values that can appear inside the structured mapping produced by
`dataclasses.asdict` on a `Stats` instance: `timedelta`, `int`, `float` and
`datetime` values. -/
inductive PyLeaf where
  | timedelta (microseconds : Int)
  | int (v : Int)
  | float (v : ℚ)
  | datetime (microseconds : Int)
deriving DecidableEq

/-- A value of the structured mapping: either a leaf or a nested mapping.
The nesting depth of `Stats` is one, so one level suffices. -/
inductive PyVal where
  | leaf (v : PyLeaf)
  | mapping (d : List (String × PyLeaf))
deriving DecidableEq

/-- What `dataclasses.asdict` produces for one `AbsRelTime` value: keys are
the dataclass field names in declaration order. -/
def AbsRelTime.asdict (a : AbsRelTime) : List (String × PyLeaf) :=
  [("time", .timedelta a.time),
   ("absolute", .int a.absolute),
   ("percentage", .float a.percentage)]

/-- `ETA.Stats.dict`, i.e. `dataclasses.asdict(self)`: keys are the `Stats`
field names in declaration order, with each `AbsRelTime` field recursively
converted to a mapping. -/
def Stats.dict (s : Stats) : List (String × PyVal) :=
  [("total", .mapping s.total.asdict),
   ("remaining", .mapping s.remaining.asdict),
   ("done", .mapping s.done.asdict),
   ("eta", .leaf (.datetime s.eta))]

/-- Left-pad a string with character `'0'` to width `w` (Python `%02d` /
`%06d` on a nonnegative value). -/
def padZeros (w : Nat) (s : String) : String :=
  String.mk (List.replicate (w - s.length) '0') ++ s

/-- CPython `timedelta.__str__` for a duration of `t` microseconds.  The
normalized representation has `0 ≤ seconds < 86400` and
`0 ≤ microseconds < 10^6` with the sign absorbed into `days`, exactly as in
`datetime.py`; floor division/modulus (`Int.fdiv`/`Int.emod`) match Python
`divmod`. -/
def timedeltaRepr (t : Int) : String :=
  let usPerDay : Int := 86400000000
  let days := t.fdiv usPerDay
  let rem := t.fmod usPerDay
  let secondsOfDay := rem.ediv 1000000
  let microseconds := rem.emod 1000000
  let ss := secondsOfDay.emod 60
  let minutesOfDay := secondsOfDay.ediv 60
  let mm := minutesOfDay.emod 60
  let hh := minutesOfDay.ediv 60
  let base := toString hh ++ ":" ++ padZeros 2 (toString mm) ++ ":" ++ padZeros 2 (toString ss)
  let withDays :=
    if days = 0 then base
    else toString days ++ " day" ++ (if days = 1 ∨ days = -1 then "" else "s") ++ ", " ++ base
  if microseconds = 0 then withDays
  else withDays ++ "." ++ padZeros 6 (toString microseconds)

/-- Round a rational to the nearest integer, ties to even.  Used to model
Python `format(x, '.1f')` at one decimal place; the Python float is modelled
as an exact rational. -/
def roundHalfEven (q : ℚ) : Int :=
  let f := ⌊q⌋
  if q - f < 1 / 2 then f
  else if (1 : ℚ) / 2 < q - f then f + 1
  else if f.emod 2 = 0 then f else f + 1

/-- Python `f-string` `{x:.1f}`: the value rounded to one decimal digit. -/
def formatFixed1 (q : ℚ) : String :=
  let n := roundHalfEven (q * 10)
  let m := n.natAbs
  let s := toString (m / 10) ++ "." ++ toString (m % 10)
  if n < 0 then "-" ++ s else s

/-- `ETA.Stats.__str__`: the default textual rendering. -/
def Stats.toStr (s : Stats) : String :=
  toString s.done.absolute ++ "/" ++ toString s.total.absolute ++ " = " ++
    formatFixed1 s.done.percentage ++ "%, remaining " ++ timedeltaRepr s.remaining.time

/-- The states an `ETA` instance can be in during a run of the program: the
state produced by a successful `__init__`, and every state reached from there
by calling `__next__`, whether that call returned normally or raised (the
state as mutated up to the raise is retained by the instance). -/
inductive Reachable {α : Type} : ETAState α → Prop where
  | init (src : PySource α) (total : Option Int) (ap ow : Bool) (now : Int)
      (st : ETAState α) : ETA.init src total ap ow now = .ok st → Reachable st
  | stepOk (st : ETAState α) (now1 now2 : Int) (p : α × Stats) (st' : ETAState α) :
      Reachable st → ETA.next st now1 now2 = .ok (p, st') → Reachable st'
  | stepErr (st : ETAState α) (now1 now2 : Int) (e : PyError) (st' : ETAState α) :
      Reachable st → ETA.next st now1 now2 = .error (e, st') → Reachable st'

/-- The exception raised by a call to `__next__`, if any. -/
def nextError {α : Type} :
    Except (PyError × ETAState α) ((α × Stats) × ETAState α) → Option PyError
  | .error (e, _) => some e
  | .ok _ => none

/-- The `__done` counter of the instance after a call to `__next__` (the
counter is mutated before anything can raise, so it is defined in both the
normal and the raising outcome). -/
def nextDone {α : Type} :
    Except (PyError × ETAState α) ((α × Stats) × ETAState α) → Int
  | .error (_, st) => st.done
  | .ok (_, st) => st.done

/-- The full instance state after a call to `__next__`, in both outcomes. -/
def nextState {α : Type} :
    Except (PyError × ETAState α) ((α × Stats) × ETAState α) → ETAState α
  | .error (_, st) => st
  | .ok (_, st) => st

/-- Run `k` consecutive successful calls of `__next__` from `st`; `nows k`
supplies the two `datetime.now()` readings of the `k`-th call.  Returns
`none` if any of the calls raises. -/
def advances {α : Type} (st : ETAState α) (nows : ℕ → Int × Int) : ℕ → Option (ETAState α)
  | 0 => some st
  | k + 1 =>
    (advances st nows k).bind fun s =>
      match ETA.next s (nows k).1 (nows k).2 with
      | .ok (_, s2) => some s2
      | .error _ => none

/-- The `(element, Stats)` pair returned by the `k`-th call of `__next__`
(1-based), provided the first `k` calls all succeed. -/
def kthAdvance {α : Type} (st : ETAState α) (nows : ℕ → Int × Int) (k : ℕ) :
    Option (α × Stats) :=
  match k with
  | 0 => none
  | j + 1 =>
    (advances st nows j).bind fun s =>
      match ETA.next s (nows j).1 (nows j).2 with
      | .ok (p, _) => some p
      | .error _ => none

/-- Fixture: the state of `ETA([10, 20, 30], ...)` right after construction
at time 0 (the scenario of the spec). -/
def st0Demo : ETAState Nat :=
  { total := 3, done := 0, startTime := 0, iterator := [10, 20, 30],
    autoPrint := true, overwrite := true }

/-- Fixture: the state of `ETA([10, 20, 30], ...)` after one advance. -/
def st1Demo : ETAState Nat :=
  { total := 3, done := 1, startTime := 0, iterator := [20, 30],
    autoPrint := true, overwrite := true }

/-- Fixture: the snapshot `st1Demo.stats()` computes when both
`datetime.now()` readings are 10 seconds after the start time. -/
def snapDemo : Stats :=
  { total := { time := 30000000, absolute := 3, percentage := 100 },
    remaining := { time := 20000000, absolute := 2, percentage := 200 / 3 },
    done := { time := 10000000, absolute := 1, percentage := 100 / 3 },
    eta := 30000000 }

/-- Fixture: a snapshot agreeing with `snapDemo` on every field that
`__str__` reads, and differing on the others (`total.time`, `done.time`,
`remaining.absolute`, `remaining.percentage`, `eta`). -/
def snapDemoB : Stats :=
  { total := { time := 77, absolute := 3, percentage := 100 },
    remaining := { time := 20000000, absolute := 42, percentage := 1 / 7 },
    done := { time := 888, absolute := 1, percentage := 100 / 3 },
    eta := -5 }

/-- Helper: `__next__` on an exhausted inner iterator raises `StopIteration`,
with the `__done` counter already incremented by the first statement of the
method body. -/
theorem next_of_nil {α : Type} (st : ETAState α) (hnil : st.iterator = [])
    (now1 now2 : Int) :
    ETA.next st now1 now2 = .error (.stopIteration, { st with done := st.done + 1 }) := by
  obtain ⟨tot, don, stt, iter, ap, ow⟩ := st
  simp only at hnil
  subst hnil
  rfl

/-- Helper: `__next__` on a non-exhausted inner iterator pulls the head and
computes the statistics of the incremented state. -/
theorem next_of_cons {α : Type} (st : ETAState α) (x : α) (rest : List α)
    (hc : st.iterator = x :: rest) (now1 now2 : Int) :
    ETA.next st now1 now2 =
      match ETA.statsAt { st with done := st.done + 1, iterator := rest } now1 now2 with
      | none => .error (.zeroDivisionError, { st with done := st.done + 1, iterator := rest })
      | some s => .ok ((x, s), { st with done := st.done + 1, iterator := rest }) := by
  obtain ⟨tot, don, stt, iter, ap, ow⟩ := st
  simp only at hc
  subst hc
  rfl

/-- Helper: `stats` succeeds exactly on states whose counters avoid both of
Python's `ZeroDivisionError` sites, and its result is as given. -/
theorem statsAt_of_ne_zero {α : Type} (st : ETAState α) (now1 now2 : Int)
    (hd : st.done ≠ 0) (ht : st.total ≠ 0) :
    ETA.statsAt st now1 now2 =
      some
        { total :=
            { time := divideAndRound (now1 - st.startTime) st.done * st.total,
              absolute := st.total,
              percentage := 100 },
          remaining :=
            { time := divideAndRound (now1 - st.startTime) st.done * (st.total - st.done),
              absolute := st.total - st.done,
              percentage := (((st.total - st.done : Int) : ℚ) / (st.total : ℚ)) * 100 },
          done :=
            { time := divideAndRound (now1 - st.startTime) st.done * st.done,
              absolute := st.done,
              percentage := ((st.done : ℚ) / (st.total : ℚ)) * 100 },
          eta := now2 + divideAndRound (now1 - st.startTime) st.done * (st.total - st.done) } := by
  unfold ETA.statsAt
  rw [if_neg (by push_neg; exact ⟨hd, ht⟩)]

/-- Helper: the concrete snapshot `ETA([10, 20, 30])` computes on the first
advance when both clock readings are 10 seconds after the start. -/
theorem statsAt_st1Demo : ETA.statsAt st1Demo 10000000 10000000 = some snapDemo := by
  rw [statsAt_of_ne_zero st1Demo 10000000 10000000 (by decide) (by decide)]
  simp only [st1Demo, snapDemo, Option.some.injEq, Stats.mk.injEq, AbsRelTime.mk.injEq]
  norm_num
  refine ⟨by decide, by decide, by decide, by decide⟩

/-- C3: every statistics snapshot the estimator produces satisfies
`done.count + remaining.count == total.count` (with `absolute` playing the
role the spec calls `count`), for every estimator state and every pair of
clock readings. -/
theorem snapshot_count_invariant {α : Type} (st : ETAState α) (now1 now2 : Int)
    (s : Stats) (h : ETA.statsAt st now1 now2 = some s) :
    s.done.absolute + s.remaining.absolute = s.total.absolute := by
  unfold ETA.statsAt at h
  split at h
  · exact Option.noConfusion h
  · injection h with h
    subst h
    show st.done + (st.total - st.done) = st.total
    ring

/-- C3 witness: the invariant at the concrete snapshot taken after the first
advance over the source `[10, 20, 30]`. -/
theorem snapshot_count_invariant_witness :
    snapDemo.done.absolute + snapDemo.remaining.absolute = snapDemo.total.absolute :=
  snapshot_count_invariant st1Demo 10000000 10000000 snapDemo statsAt_st1Demo

/-- C9: in every snapshot the estimator produces,
`done.percentage + remaining.percentage == 100` holds exactly in the rational
arithmetic modelling Python floats, and `total.percentage == 100` always. -/
theorem snapshot_percentages {α : Type} (st : ETAState α) (now1 now2 : Int)
    (s : Stats) (h : ETA.statsAt st now1 now2 = some s) :
    s.done.percentage + s.remaining.percentage = 100 ∧ s.total.percentage = 100 := by
  unfold ETA.statsAt at h
  split at h
  · exact Option.noConfusion h
  · rename_i hcond
    push_neg at hcond
    injection h with h
    subst h
    refine ⟨?_, rfl⟩
    show (st.done : ℚ) / (st.total : ℚ) * 100 +
        ((st.total - st.done : Int) : ℚ) / (st.total : ℚ) * 100 = 100
    have ht : (st.total : ℚ) ≠ 0 := Int.cast_ne_zero.mpr hcond.2
    push_cast
    field_simp
    ring

/-- C9 witness: the percentages of the concrete snapshot after the first
advance over `[10, 20, 30]`: `100/3 + 200/3 = 100` and `total` at `100`. -/
theorem snapshot_percentages_witness :
    snapDemo.done.percentage + snapDemo.remaining.percentage = 100 ∧
      snapDemo.total.percentage = 100 :=
  snapshot_percentages st1Demo 10000000 10000000 snapDemo statsAt_st1Demo

/-- C5: constructing with no explicit total and a source that has no
`__len__` raises (`TypeError` in the code, the spec's `InvalidArgument`);
the `Except.error` result carries no state, so no partial instance exists. -/
theorem init_without_len_raises {α : Type} (elems : List α) (ap ow : Bool) (now : Int) :
    ETA.init (⟨elems, false⟩ : PySource α) none ap ow now = .error PyError.typeError :=
  rfl

/-- C10: `Stats.__str__` is a pure function of the snapshot: its output is
fully determined by the fields it reads (`done.absolute`, `total.absolute`,
`done.percentage`, `remaining.time`), so repeated calls on the same (frozen,
hence immutable) snapshot return identical text. -/
theorem toStr_pure (s1 s2 : Stats)
    (h1 : s1.done.absolute = s2.done.absolute)
    (h2 : s1.total.absolute = s2.total.absolute)
    (h3 : s1.done.percentage = s2.done.percentage)
    (h4 : s1.remaining.time = s2.remaining.time) :
    Stats.toStr s1 = Stats.toStr s2 := by
  unfold Stats.toStr
  rw [h1, h2, h3, h4]

/-- C10 witness: two snapshots that agree on the fields `__str__` reads but
differ everywhere else render to the same text. -/
theorem toStr_pure_witness :
    snapDemo.done.absolute = snapDemoB.done.absolute ∧
      snapDemo.eta ≠ snapDemoB.eta ∧
      Stats.toStr snapDemo = Stats.toStr snapDemoB :=
  ⟨by decide, by decide, toStr_pure snapDemo snapDemoB rfl rfl rfl rfl⟩

/-- C7 counterexample: the structured mapping of a concrete snapshot (the one
computed after the first advance over `[10, 20, 30]`) has its nested fields
named `time`, `absolute`, `percentage` — not `duration`, `count`,
`percentage` as the claim states. -/
theorem dict_nested_field_names_differ :
    ETA.statsAt st1Demo 10000000 10000000 = some snapDemo ∧
      (Stats.dict snapDemo).map Prod.fst = ["total", "remaining", "done", "eta"] ∧
      (AbsRelTime.asdict snapDemo.total).map Prod.fst = ["time", "absolute", "percentage"] ∧
      ¬(AbsRelTime.asdict snapDemo.total).map Prod.fst = ["duration", "count", "percentage"] := by
  refine ⟨statsAt_st1Demo, rfl, rfl, by decide⟩

/-- C7 amended: the structured-mapping export of every snapshot has exactly
the four top-level fields `total`, `remaining`, `done`, `eta`, with `total`,
`remaining` and `done` each nested as a mapping whose fields are the
`AbsRelTime` field names `time`, `absolute`, `percentage`. -/
theorem dict_export_fields (s : Stats) :
    (Stats.dict s).map Prod.fst = ["total", "remaining", "done", "eta"] ∧
      (AbsRelTime.asdict s.total).map Prod.fst = ["time", "absolute", "percentage"] ∧
      (AbsRelTime.asdict s.remaining).map Prod.fst = ["time", "absolute", "percentage"] ∧
      (AbsRelTime.asdict s.done).map Prod.fst = ["time", "absolute", "percentage"] ∧
      Stats.dict s =
        [("total", PyVal.mapping (AbsRelTime.asdict s.total)),
         ("remaining", PyVal.mapping (AbsRelTime.asdict s.remaining)),
         ("done", PyVal.mapping (AbsRelTime.asdict s.done)),
         ("eta", PyVal.leaf (PyLeaf.datetime s.eta))] :=
  ⟨rfl, rfl, rfl, rfl, rfl⟩

/-- C2 failing input, evaluated: `ETA([10], total=0)` ignores the explicit
total `0` (Python truthiness of `if total:`) and derives `__total = 1` from
`len`, and `ETA(<no __len__>, total=0)` raises `TypeError` even though an
explicit total was supplied. -/
theorem explicit_total_zero_ignored :
    ETA.init (⟨[10], true⟩ : PySource Nat) (some 0) true true 0 =
        .ok { total := 1, done := 0, startTime := 0, iterator := [10],
              autoPrint := true, overwrite := true } ∧
      ETA.init (⟨[10], false⟩ : PySource Nat) (some 0) true true 0 =
        .error PyError.typeError :=
  ⟨rfl, rfl⟩

/-- C1 failing input, evaluated: for the 1-element source `[10]`, the first
advance succeeds with `done.count = 1`; the second advance raises
`StopIteration` but leaves `__done = 2`, because `self.__done += 1` executes
before `next(self.__iterable)` raises. -/
theorem done_incremented_by_exhausted_advance :
    ETA.init (⟨[10], true⟩ : PySource Nat) none true true 0 =
        .ok { total := 1, done := 0, startTime := 0, iterator := [10],
              autoPrint := true, overwrite := true } ∧
      nextError (ETA.next ({ total := 1, done := 0, startTime := 0, iterator := [10],
                             autoPrint := true, overwrite := true } : ETAState Nat) 0 0) = none ∧
      nextState (ETA.next ({ total := 1, done := 0, startTime := 0, iterator := [10],
                             autoPrint := true, overwrite := true } : ETAState Nat) 0 0) =
        { total := 1, done := 1, startTime := 0, iterator := [],
          autoPrint := true, overwrite := true } ∧
      ETA.next ({ total := 1, done := 1, startTime := 0, iterator := [],
                  autoPrint := true, overwrite := true } : ETAState Nat) 0 0 =
        .error (PyError.stopIteration,
                { total := 1, done := 2, startTime := 0, iterator := [],
                  autoPrint := true, overwrite := true }) :=
  ⟨rfl, rfl, rfl, rfl⟩


/-- Helper: any state produced by a successful `__init__` has `__done = 0`,
its iterator set to the source elements, and a `__total` that is either the
source length or a nonzero explicit total. -/
theorem init_ok_state {α : Type} (src : PySource α) (total : Option Int)
    (ap ow : Bool) (now : Int) (st : ETAState α)
    (h : ETA.init src total ap ow now = .ok st) :
    st.done = 0 ∧ st.iterator = src.elems ∧
      (st.total = (src.elems.length : Int) ∨ st.total ≠ 0) := by
  obtain ⟨elems, hasLen⟩ := src
  rcases total with _ | t
  · cases hasLen with
    | false => exact Except.noConfusion h
    | true =>
      injection h with h
      subst h
      exact ⟨rfl, rfl, Or.inl rfl⟩
  · by_cases ht : t = 0
    · subst ht
      rw [show ETA.init (⟨elems, hasLen⟩ : PySource α) (some 0) ap ow now =
            ETA.init (⟨elems, hasLen⟩ : PySource α) none ap ow now from rfl] at h
      cases hasLen with
      | false => exact Except.noConfusion h
      | true =>
        injection h with h
        subst h
        exact ⟨rfl, rfl, Or.inl rfl⟩
    · have hi : ETA.init (⟨elems, hasLen⟩ : PySource α) (some t) ap ow now =
          .ok { total := t, done := 0, startTime := now, iterator := elems,
                autoPrint := ap, overwrite := ow } := by
        unfold ETA.init
        simp [ht]
      rw [hi] at h
      injection h with h
      subst h
      exact ⟨rfl, rfl, Or.inr ht⟩

/-- Helper invariant of every reachable state: the `__done` counter is
nonnegative, and a zero `__total` can only coexist with an exhausted
iterator (a zero total is only ever derived from an empty source). -/
theorem reachable_inv {α : Type} {st : ETAState α} (h : Reachable st) :
    0 ≤ st.done ∧ (st.total = 0 → st.iterator = []) := by
  induction h with
  | init src total ap ow now st h0 =>
    obtain ⟨hd, hit, htot⟩ := init_ok_state src total ap ow now st h0
    refine ⟨le_of_eq hd.symm, fun hz => ?_⟩
    rcases htot with hlen | hne
    · rw [hlen] at hz
      have hz' : src.elems.length = 0 := by exact_mod_cast hz
      rw [hit]
      exact List.length_eq_zero.mp hz'
    · exact absurd hz hne
  | stepOk st now1 now2 p st' hr hn ih =>
    cases hit : st.iterator with
    | nil =>
      rw [next_of_nil st hit] at hn
      exact Except.noConfusion hn
    | cons x rest =>
      rw [next_of_cons st x rest hit] at hn
      split at hn
      · exact Except.noConfusion hn
      · injection hn with hn
        have hst2 := congrArg Prod.snd hn
        simp only at hst2
        subst hst2
        refine ⟨?_, fun hz => ?_⟩
        · show 0 ≤ st.done + 1
          omega
        · have hnil := ih.2 hz
          rw [hit] at hnil
          exact List.noConfusion hnil
  | stepErr st now1 now2 e st' hr hn ih =>
    cases hit : st.iterator with
    | nil =>
      rw [next_of_nil st hit] at hn
      injection hn with hn
      have hst2 := congrArg Prod.snd hn
      simp only at hst2
      subst hst2
      refine ⟨?_, fun hz => ?_⟩
      · show 0 ≤ st.done + 1
        omega
      · show st.iterator = []
        exact hit
    | cons x rest =>
      rw [next_of_cons st x rest hit] at hn
      split at hn
      · injection hn with hn
        have hst2 := congrArg Prod.snd hn
        simp only at hst2
        subst hst2
        refine ⟨?_, fun hz => ?_⟩
        · show 0 ≤ st.done + 1
          omega
        · have hnil := ih.2 hz
          rw [hit] at hnil
          exact List.noConfusion hnil
      · exact Except.noConfusion hn

/-- C6: on every state the program can reach, an advance never raises
`ZeroDivisionError`: the statistics computation runs only after the
increment, so its divisor (`nextDone`, the `__done` value the state has when
`stats` is invoked) is at least 1. -/
theorem next_no_zero_division {α : Type} (st : ETAState α) (h : Reachable st)
    (now1 now2 : Int) :
    nextError (ETA.next st now1 now2) ≠ some PyError.zeroDivisionError ∧
      1 ≤ nextDone (ETA.next st now1 now2) := by
  obtain ⟨hdone, htot⟩ := reachable_inv h
  cases hit : st.iterator with
  | nil =>
    rw [next_of_nil st hit]
    refine ⟨by simp [nextError], ?_⟩
    show 1 ≤ st.done + 1
    omega
  | cons x rest =>
    rw [next_of_cons st x rest hit]
    have ht0 : st.total ≠ 0 := by
      intro hz
      rw [htot hz] at hit
      exact List.noConfusion hit
    rw [statsAt_of_ne_zero
          { total := st.total, done := st.done + 1, startTime := st.startTime,
            iterator := rest, autoPrint := st.autoPrint, overwrite := st.overwrite }
          now1 now2 (by show st.done + 1 ≠ 0; omega) (by show st.total ≠ 0; exact ht0)]
    refine ⟨by simp [nextError], ?_⟩
    show 1 ≤ st.done + 1
    omega

/-- C6 witness: the freshly constructed `ETA([10, 20, 30])` state. -/
theorem next_no_zero_division_witness :
    nextError (ETA.next st0Demo 10000000 10000000) ≠ some PyError.zeroDivisionError ∧
      1 ≤ nextDone (ETA.next st0Demo 10000000 10000000) :=
  next_no_zero_division st0Demo
    (Reachable.init ⟨[10, 20, 30], true⟩ none true true 0 st0Demo rfl) 10000000 10000000

/-- Helper: running `k ≤ N` successful advances from the initial state over
a source of length `N` yields the state with `__done = k` and the first `k`
elements consumed, whatever the clock readings are. -/
theorem advances_init_spec {α : Type} (src : List α) (ap ow : Bool) (t0 : Int)
    (nows : ℕ → Int × Int) (k : ℕ) (hk : k ≤ src.length) :
    advances { total := (src.length : Int), done := 0, startTime := t0, iterator := src,
               autoPrint := ap, overwrite := ow } nows k =
      some { total := (src.length : Int), done := (k : Int), startTime := t0,
             iterator := src.drop k, autoPrint := ap, overwrite := ow } := by
  induction k with
  | zero => simp [advances]
  | succ j ih =>
    have hj : j ≤ src.length := Nat.le_of_succ_le hk
    have hlt : j < src.length := hk
    show (advances _ nows j).bind _ = _
    rw [ih hj, Option.some_bind]
    have hne : src.drop j ≠ [] := by
      rw [ne_eq, List.drop_eq_nil_iff]
      omega
    obtain ⟨y, ys, hys⟩ := List.exists_cons_of_ne_nil hne
    rw [next_of_cons _ y ys (by simpa using hys)]
    rw [statsAt_of_ne_zero
          { total := (src.length : Int), done := (j : Int) + 1, startTime := t0,
            iterator := ys, autoPrint := ap, overwrite := ow }
          (nows j).1 (nows j).2
          (by show (j : Int) + 1 ≠ 0; omega)
          (by show ((src.length : ℕ) : Int) ≠ 0; omega)]
    have hys' : ys = src.drop (j + 1) := by
      have htl := List.tail_drop src j
      rw [hys] at htl
      simpa using htl
    simp only [Option.some.injEq, ETAState.mk.injEq, true_and, and_true]
    exact ⟨by push_cast; ring, hys'⟩

/-- C4: constructing over a source of length `N` with no explicit total
gives `total.count = N`, and for every `1 ≤ k ≤ N` the snapshot returned by
the `k`-th advance has `done.count = k` and `remaining.count = N - k`
(`absolute` being the field the spec calls `count`). -/
theorem advance_counts {α : Type} (src : List α) (ap ow : Bool) (t0 : Int)
    (st0 : ETAState α) (h0 : ETA.init ⟨src, true⟩ none ap ow t0 = .ok st0)
    (nows : ℕ → Int × Int) (k : ℕ) (hk1 : 1 ≤ k) (hkN : k ≤ src.length) :
    st0.total = (src.length : Int) ∧
      (kthAdvance st0 nows k).map (fun p => (p.2.done.absolute, p.2.remaining.absolute)) =
        some ((k : Int), (src.length : Int) - (k : Int)) := by
  have h0' : ETA.init (⟨src, true⟩ : PySource α) none ap ow t0 =
      .ok { total := (src.length : Int), done := 0, startTime := t0, iterator := src,
            autoPrint := ap, overwrite := ow } := rfl
  rw [h0'] at h0
  injection h0 with h0
  subst h0
  refine ⟨rfl, ?_⟩
  obtain ⟨j, rfl⟩ : ∃ j, k = j + 1 := ⟨k - 1, by omega⟩
  show ((advances _ nows j).bind _).map _ = _
  rw [advances_init_spec src ap ow t0 nows j (by omega), Option.some_bind]
  have hne : src.drop j ≠ [] := by
    rw [ne_eq, List.drop_eq_nil_iff]
    omega
  obtain ⟨y, ys, hys⟩ := List.exists_cons_of_ne_nil hne
  rw [next_of_cons _ y ys (by simpa using hys)]
  rw [statsAt_of_ne_zero
        { total := (src.length : Int), done := (j : Int) + 1, startTime := t0,
          iterator := ys, autoPrint := ap, overwrite := ow }
        (nows j).1 (nows j).2
        (by show (j : Int) + 1 ≠ 0; omega)
        (by show ((src.length : ℕ) : Int) ≠ 0; omega)]
  simp only [Option.map_some', Option.some.injEq, Prod.mk.injEq]
  constructor
  · push_cast
    ring
  · push_cast
    ring

/-- C4 witness: the spec scenario, source `[10, 20, 30]` and `k = 3`:
`total.count = 3`, `done.count = 3`, `remaining.count = 0`. -/
theorem advance_counts_witness :
    st0Demo.total = (([10, 20, 30] : List ℕ).length : Int) ∧
      (kthAdvance st0Demo (fun _ => (10000000, 10000000)) 3).map
          (fun p => (p.2.done.absolute, p.2.remaining.absolute)) =
        some (((3 : ℕ) : Int), (([10, 20, 30] : List ℕ).length : Int) - ((3 : ℕ) : Int)) :=
  advance_counts [10, 20, 30] true true 0 st0Demo rfl (fun _ => (10000000, 10000000)) 3
    (by decide) (by decide)

/-- C8: every snapshot the estimator produces renders exactly as
`"<done_count>/<total_count> = <done_percentage:.1f>%, remaining
<remaining_duration>"`, with the components coming from the estimator
state. -/
theorem str_rendering {α : Type} (st : ETAState α) (now1 now2 : Int) (s : Stats)
    (h : ETA.statsAt st now1 now2 = some s) :
    Stats.toStr s =
      toString st.done ++ "/" ++ toString st.total ++ " = " ++
        formatFixed1 ((st.done : ℚ) / (st.total : ℚ) * 100) ++ "%, remaining " ++
        timedeltaRepr (divideAndRound (now1 - st.startTime) st.done * (st.total - st.done)) := by
  unfold ETA.statsAt at h
  split at h
  · exact Option.noConfusion h
  · injection h with h
    subst h
    rfl

/-- C8 witness: the snapshot of `1/3` done after 10 seconds renders to the
literal text `"1/3 = 33.3%, remaining 0:00:20"`. -/
theorem str_rendering_witness :
    Stats.toStr snapDemo =
      toString st1Demo.done ++ "/" ++ toString st1Demo.total ++ " = " ++
        formatFixed1 ((st1Demo.done : ℚ) / (st1Demo.total : ℚ) * 100) ++ "%, remaining " ++
        timedeltaRepr (divideAndRound (10000000 - st1Demo.startTime) st1Demo.done *
          (st1Demo.total - st1Demo.done)) ∧
      Stats.toStr snapDemo = "1/3 = 33.3%, remaining 0:00:20" := by
  refine ⟨str_rendering st1Demo 10000000 10000000 snapDemo statsAt_st1Demo, ?_⟩
  have hr : roundHalfEven ((100 / 3 : ℚ) * 10) = 333 := by
    unfold roundHalfEven
    norm_num
  have hf : formatFixed1 (100 / 3 : ℚ) = "33.3" := by
    simp only [formatFixed1, hr]
    decide
  have ht : timedeltaRepr 20000000 = "0:00:20" := by decide
  simp only [Stats.toStr, snapDemo]
  rw [hf, ht]
  decide

end Estipy
